import Mathlib

/-!
Shallow embedding of `onpolicy/envs/mpe/rendering.py` (matplotlib-based 2D
renderer) and `onpolicy/envs/mpe/scenarios/__init__.py` (dynamic module
loader), with theorems settling the specification claims.

Numbers are modelled as rationals (`ℚ`). The cosine and sine used by
matplotlib's `Affine2D.rotate` are passed as explicit function parameters
`rc rs : ℚ → ℚ`, so every definition stays computable; theorems that need
facts such as `cos 0 = 1` take them as hypotheses.
-/

namespace Rendering

/-- An affine map of the rational plane, the embedding of a matplotlib
`Affine2D` matrix: the point `(x, y)` is sent to
`(a*x + b*y + c, d*x + e*y + f)`. -/
structure Affine2D where
  a : ℚ
  b : ℚ
  c : ℚ
  d : ℚ
  e : ℚ
  f : ℚ
deriving DecidableEq, Repr

/-- The identity affine map (`mtransforms.Affine2D()`). -/
def Affine2D.id : Affine2D := ⟨1, 0, 0, 0, 1, 0⟩

/-- Apply an affine map to a point. -/
def Affine2D.apply (m : Affine2D) (p : ℚ × ℚ) : ℚ × ℚ :=
  (m.a * p.1 + m.b * p.2 + m.c, m.d * p.1 + m.e * p.2 + m.f)

/-- Composition of affine maps: `m.comp n` applies `n` first, then `m`
(matrix product `M·N`). -/
def Affine2D.comp (m n : Affine2D) : Affine2D :=
  ⟨m.a * n.a + m.b * n.d, m.a * n.b + m.b * n.e, m.a * n.c + m.b * n.f + m.c,
   m.d * n.a + m.e * n.d, m.d * n.b + m.e * n.e, m.d * n.c + m.e * n.f + m.f⟩

/-- matplotlib `Transform.__add__`: `x + y` is the composite transform that
applies `x` first, then `y`. -/
def mplAdd (x y : Affine2D) : Affine2D := y.comp x

/-- The matrix prepended by `Affine2D.scale(sx, sy)`. -/
def scaleM (sx sy : ℚ) : Affine2D := ⟨sx, 0, 0, 0, sy, 0⟩

/-- The matrix prepended by `Affine2D.rotate(theta)`, with `c = cos theta`
and `s = sin theta`. -/
def rotM (c s : ℚ) : Affine2D := ⟨c, -s, 0, s, c, 0⟩

/-- The matrix prepended by `Affine2D.translate(tx, ty)`. -/
def transM (tx ty : ℚ) : Affine2D := ⟨1, 0, tx, 0, 1, ty⟩

/-- Embedding of `_clamp01`: clamp a value into `[0, 1]`. -/
def clamp01 (x : ℚ) : ℚ := max 0 (min 1 x)

/-- Embedding of the `Color` attribute: an RGBA quadruple, each channel
clamped into `[0, 1]` on construction. -/
structure Color where
  vec4 : ℚ × ℚ × ℚ × ℚ
deriving DecidableEq, Repr

/-- `Color((r, g, b, a))` — the constructor clamps each channel. -/
def Color.ofRGBA (r g b a : ℚ) : Color :=
  ⟨(clamp01 r, clamp01 g, clamp01 b, clamp01 a)⟩

/-- Embedding of the `Transform` attribute: translation, rotation in
radians, and per-axis scale. -/
structure Transform where
  translation : ℚ × ℚ
  rotation : ℚ
  scale : ℚ × ℚ
deriving DecidableEq, Repr

def Transform.set_translation (t : Transform) (newx newy : ℚ) : Transform :=
  { t with translation := (newx, newy) }

def Transform.set_rotation (t : Transform) (new : ℚ) : Transform :=
  { t with rotation := new }

def Transform.set_scale (t : Transform) (newx newy : ℚ) : Transform :=
  { t with scale := (newx, newy) }

/-- Embedding of `Transform.as_affine`: starting from the identity,
conditionally compose the scale, the rotation and the translation, each
prepended on top of the matrix built so far (matplotlib's in-place
`scale`/`rotate`/`translate` left-multiply). `rc`/`rs` supply
`cos`/`sin` for the rotation angle. -/
def Transform.as_affine (rc rs : ℚ → ℚ) (T : Transform) : Affine2D :=
  let t0 := Affine2D.id
  let t1 := if T.scale.1 ≠ 1 ∨ T.scale.2 ≠ 1 then
      (scaleM T.scale.1 T.scale.2).comp t0 else t0
  let t2 := if T.rotation ≠ 0 then
      (rotM (rc T.rotation) (rs T.rotation)).comp t1 else t1
  let t3 := if T.translation.1 ≠ 0 ∨ T.translation.2 ≠ 0 then
      (transM T.translation.1 T.translation.2).comp t2 else t2
  t3

/-- The attribute variants attachable to a `Geom` (`Attr` subclasses). -/
inductive Attr where
  | color (c : Color)
  | linewidth (stroke : ℚ)
  | transform (t : Transform)
deriving DecidableEq, Repr

def Attr.isColor : Attr → Bool
  | .color _ => true
  | _ => false

/-- The state every `Geom` carries (`Geom.__init__`): the current color
slot `_color`, the ordered attribute list `attrs`, and the current
stroke width `_linewidth.stroke`. -/
structure GeomState where
  color : Color
  attrs : List Attr
  linewidth : ℚ
deriving DecidableEq, Repr

/-- `Geom.__init__`: black opaque color, attrs containing just that color,
line width 1. -/
def GeomState.init : GeomState :=
  let c := Color.ofRGBA 0 0 0 1
  ⟨c, [Attr.color c], 1⟩

/-- `Geom.add_attr`: append to the attribute list. -/
def GeomState.add_attr (g : GeomState) (a : Attr) : GeomState :=
  { g with attrs := g.attrs ++ [a] }

/-- `Geom.set_color`: set the current color slot, remove every `Color`
attribute from `attrs`, then append the fresh one. -/
def GeomState.set_color (g : GeomState) (r gr b alpha : ℚ) : GeomState :=
  let c := Color.ofRGBA r gr b alpha
  { g with
    color := c
    attrs := (g.attrs.filter fun a => !a.isColor) ++ [Attr.color c] }

/-- `Geom.set_linewidth`. -/
def GeomState.set_linewidth (g : GeomState) (x : ℚ) : GeomState :=
  { g with linewidth := x }

/-- `Geom._collect_transform`: fold over `reversed(self.attrs)`, and for
each `Transform` attribute do `affine = affine + attr.as_affine()`
(matplotlib `+`, which applies the accumulated map first). -/
def collect_transform (rc rs : ℚ → ℚ) (g : GeomState) : Affine2D :=
  g.attrs.reverse.foldl
    (fun affine attr =>
      match attr with
      | Attr.transform t => mplAdd affine (t.as_affine rc rs)
      | _ => affine)
    Affine2D.id

/-- `Geom._get_colors`: the face color is the current color; the edge
color is the face color halved componentwise, alpha included. -/
def GeomState.get_colors (g : GeomState) : (ℚ × ℚ × ℚ × ℚ) × (ℚ × ℚ × ℚ × ℚ) :=
  let v := g.color.vec4
  ((v.1, v.2.1, v.2.2.1, v.2.2.2),
   (1/2 * v.1, 1/2 * v.2.1, 1/2 * v.2.2.1, 1/2 * v.2.2.2))

/-- The matplotlib artists a draw call adds to the axes: a `Polygon`
patch, a `Line2D`, or a `Circle` patch. Patches carry the transform set
via `set_transform` (the part before `+ ax.transData`); a `Line2D` gets
pre-transformed points. -/
inductive Artist where
  | polygon (verts : List (ℚ × ℚ)) (face edge : ℚ × ℚ × ℚ × ℚ) (lw : ℚ) (tf : Affine2D)
  | line (pts : List (ℚ × ℚ)) (lw : ℚ) (col : ℚ × ℚ × ℚ × ℚ)
  | circle (center : ℚ × ℚ) (radius : ℚ) (face edge : ℚ × ℚ × ℚ × ℚ) (lw : ℚ) (tf : Affine2D)
deriving DecidableEq, Repr

/-- The `Geom` subclasses: `FilledPolygon`, `PolyLine`, `Circle`,
`Compound`. Each carries its base-class state. -/
inductive Geom where
  | filledPolygon (st : GeomState) (v : List (ℚ × ℚ))
  | polyLine (st : GeomState) (v : List (ℚ × ℚ)) (close : Bool)
  | circle (st : GeomState) (radius : ℚ)
  | compound (st : GeomState) (gs : List Geom)
deriving Repr

/-- The base-class state of a geom. -/
def Geom.st : Geom → GeomState
  | .filledPolygon st _ => st
  | .polyLine st _ _ => st
  | .circle st _ => st
  | .compound st _ => st

/-- `Geom.add_attr` on any variant. -/
def Geom.add_attr : Geom → Attr → Geom
  | .filledPolygon st v, a => .filledPolygon (st.add_attr a) v
  | .polyLine st v c, a => .polyLine (st.add_attr a) v c
  | .circle st r, a => .circle (st.add_attr a) r
  | .compound st gs, a => .compound (st.add_attr a) gs

/-- `Geom.set_color` on any variant. -/
def Geom.set_color : Geom → ℚ → ℚ → ℚ → ℚ → Geom
  | .filledPolygon st v, r, gr, b, al => .filledPolygon (st.set_color r gr b al) v
  | .polyLine st v c, r, gr, b, al => .polyLine (st.set_color r gr b al) v c
  | .circle st rad, r, gr, b, al => .circle (st.set_color r gr b al) rad
  | .compound st gs, r, gr, b, al => .compound (st.set_color r gr b al) gs

/-- `Geom.set_linewidth` on any variant. -/
def Geom.set_linewidth : Geom → ℚ → Geom
  | .filledPolygon st v, x => .filledPolygon (st.set_linewidth x) v
  | .polyLine st v c, x => .polyLine (st.set_linewidth x) v c
  | .circle st r, x => .circle (st.set_linewidth x) r
  | .compound st gs, x => .compound (st.set_linewidth x) gs

mutual

/-- The `draw(ax)` methods, returning the artists added to the axes in
order. `FilledPolygon.draw` adds a closed polygon patch carrying the
collected transform; `PolyLine.draw` adds a `Line2D` through the
pre-transformed points, repeating the first point at the end when
`close` is set (the source indexes `self.v[0]`, so the closed case
presumes a nonempty vertex list; `v.take 1` agrees with `[v[0]]` there);
`Circle.draw` adds a circle patch at the local origin; `Compound.draw`
draws each child in order and uses none of its own state. -/
def Geom.draw (rc rs : ℚ → ℚ) : Geom → List Artist
  | .filledPolygon st v =>
    let colors := st.get_colors
    [Artist.polygon v colors.1 colors.2 st.linewidth (collect_transform rc rs st)]
  | .polyLine st v close =>
    let colors := st.get_colors
    let pts := if close then v ++ v.take 1 else v
    let aff := collect_transform rc rs st
    [Artist.line (pts.map aff.apply) st.linewidth colors.2]
  | .circle st radius =>
    let colors := st.get_colors
    [Artist.circle (0, 0) radius colors.1 colors.2 st.linewidth (collect_transform rc rs st)]
  | .compound _st gs => Geom.drawList rc rs gs

/-- `for g in self.gs: g.draw(ax)`. -/
def Geom.drawList (rc rs : ℚ → ℚ) : List Geom → List Artist
  | [] => []
  | g :: gs => Geom.draw rc rs g ++ Geom.drawList rc rs gs

end

/-- Number of rasterized segments of an artist: a `Line2D` through `k`
points draws `k - 1` segments. -/
def Artist.nsegments : Artist → ℕ
  | .line pts _ _ => pts.length - 1
  | _ => 0

/-- The list of points a `Line2D` artist is drawn through. -/
def Artist.linePoints : Artist → List (ℚ × ℚ)
  | .line pts _ _ => pts
  | _ => []

/-- World-space center of a circle patch: its transform applied to its
local center. `none` for other artists. -/
def Artist.circleWorldCenter : Artist → Option (ℚ × ℚ)
  | .circle c _ _ _ _ tf => some (tf.apply c)
  | _ => none

set_option linter.unusedVariables false in
/-- `make_circle(radius, res, filled)` — `res` and `filled` are ignored. -/
def make_circle (radius : ℚ) (res : ℕ) (filled : Bool) : Geom :=
  Geom.circle GeomState.init radius

/-- `make_polygon(v, filled)`. -/
def make_polygon (v : List (ℚ × ℚ)) (filled : Bool) : Geom :=
  if filled then Geom.filledPolygon GeomState.init v
  else Geom.polyLine GeomState.init v true

/-- `make_polyline(v)`. -/
def make_polyline (v : List (ℚ × ℚ)) : Geom :=
  Geom.polyLine GeomState.init v false

/-- `make_capsule(length, width)`: a rectangle plus two caps, the second
cap carrying a `Transform` translating it by `(length, 0)`. -/
def make_capsule (length width : ℚ) : Geom :=
  let half_w := width / 2
  let body := make_polygon
    [(0, -half_w), (0, half_w), (length, half_w), (length, -half_w)] true
  let cap0 := make_circle half_w 30 true
  let cap1 := make_circle half_w 30 true
  let t1 : Transform := ⟨(length, 0), 0, (1, 1)⟩
  let cap1 := cap1.add_attr (Attr.transform t1)
  Geom.compound GeomState.init [body, cap0, cap1]

/-- The `Viewer` state: pixel dimensions, dpi, the persistent and
one-time geometry lists, and the stored view bounds
`(left, right, bottom, top)` (`self._bounds`). -/
structure Viewer where
  width : ℕ
  height : ℕ
  dpi : ℕ
  geoms : List Geom
  onetime_geoms : List Geom
  bounds : ℚ × ℚ × ℚ × ℚ

/-- `Viewer.__init__`: empty geometry lists, default bounds
`(-1, 1, -1, 1)`. -/
def Viewer.init (width height dpi : ℕ) : Viewer :=
  ⟨width, height, dpi, [], [], (-1, 1, -1, 1)⟩

/-- `Viewer.set_bounds`: `assert right > left and top > bottom`, then
store the bounds. `none` models the `AssertionError`, raised before any
mutation. -/
def Viewer.set_bounds (v : Viewer) (left right bottom top : ℚ) : Option Viewer :=
  if right > left ∧ top > bottom then
    some { v with bounds := (left, right, bottom, top) }
  else none

/-- `Viewer.add_geom`. -/
def Viewer.add_geom (v : Viewer) (geom : Geom) : Viewer :=
  { v with geoms := v.geoms ++ [geom] }

/-- `Viewer.add_onetime`. -/
def Viewer.add_onetime (v : Viewer) (geom : Geom) : Viewer :=
  { v with onetime_geoms := v.onetime_geoms ++ [geom] }

/-- The axes state a render call produces before rasterization:
`set_xlim`/`set_ylim` from the stored bounds (`_prepare_axes`), then the
artists of the persistent geoms followed by those of the one-time
geoms. -/
structure Frame where
  xlim : ℚ × ℚ
  ylim : ℚ × ℚ
  artists : List Artist

/-- The frame drawn by `Viewer.render` before output handling. -/
def Viewer.prepare_frame (rc rs : ℚ → ℚ) (v : Viewer) : Frame :=
  ⟨(v.bounds.1, v.bounds.2.1), (v.bounds.2.2.1, v.bounds.2.2.2),
   Geom.drawList rc rs v.geoms ++ Geom.drawList rc rs v.onetime_geoms⟩

/-- The geoms a render call draws, in drawing order. -/
def Viewer.drawnGeoms (v : Viewer) : List Geom :=
  v.geoms ++ v.onetime_geoms

/-- `FigureCanvasAgg.tostring_argb` as a flat byte list: for each pixel,
row-major from the top row, the four bytes alpha, red, green, blue.
`pix i j` is the rasterizer's ARGB value at row `i`, column `j`. -/
def tostring_argb (w h : ℕ) (pix : ℕ → ℕ → ℕ × ℕ × ℕ × ℕ) : List ℕ :=
  (List.range h).flatMap fun i =>
    (List.range w).flatMap fun j =>
      [(pix i j).1, (pix i j).2.1, (pix i j).2.2.1, (pix i j).2.2.2]

/-- `buf.reshape((h, w, 4))[:, :, :3]`: pixel `(i, j)` of the result is
the first three of the four bytes starting at flat offset
`(i*w + j) * 4`. -/
def extract_pixels (w h : ℕ) (buf : List ℕ) : List (List (List ℕ)) :=
  (List.range h).map fun i =>
    (List.range w).map fun j =>
      (buf.drop ((i * w + j) * 4)).take 3

/-- `Viewer.render(return_rgb_array)`: draw the frame, clear the
one-time list unconditionally, and if pixels were requested rasterize
(`rasterize` abstracts the Agg backend, giving each pixel's ARGB bytes)
and extract via `tostring_argb` + reshape + `[:, :, :3]`; otherwise
return `none`. Returns the optional pixel array and the new viewer
state. -/
def Viewer.render (rc rs : ℚ → ℚ) (rasterize : Frame → ℕ → ℕ → ℕ × ℕ × ℕ × ℕ)
    (v : Viewer) (return_rgb_array : Bool) :
    Option (List (List (List ℕ))) × Viewer :=
  let frame := v.prepare_frame rc rs
  let v2 := { v with onetime_geoms := ([] : List Geom) }
  if return_rgb_array then
    (some (extract_pixels v.width v.height
      (tostring_argb v.width v.height (rasterize frame))), v2)
  else (none, v2)

/-- The attribute dictionary accepted by `_add_attrs`: an optional
`color` (an RGB triple; `set_color` is called with alpha defaulting
to 1) and an optional `linewidth`. -/
structure AttrMap where
  color : Option (ℚ × ℚ × ℚ)
  linewidth : Option ℚ

/-- `_add_attrs(geom, attrs)`. -/
def add_attrs (geom : Geom) (attrs : AttrMap) : Geom :=
  let geom := match attrs.color with
    | some (r, gr, b) => geom.set_color r gr b 1
    | none => geom
  match attrs.linewidth with
    | some w => geom.set_linewidth w
    | none => geom

/-- `Viewer.draw_circle`: build via `make_circle`, apply the attribute
map, register as one-time, and return the geom with the new viewer
state. -/
def Viewer.draw_circle (v : Viewer) (radius : ℚ) (res : ℕ) (filled : Bool)
    (attrs : AttrMap) : Geom × Viewer :=
  let geom := make_circle radius res filled
  let geom := add_attrs geom attrs
  (geom, v.add_onetime geom)

end Rendering

namespace Scenarios

/-- The result of `importlib.util.spec_from_file_location`: a module
spec whose `loader` may be absent. `L` is the type of loaders. -/
structure ModuleSpec (L : Type) where
  loader : Option L

/-- The exceptions `load` raises: `FileNotFoundError(pathname)` or
`ImportError` complaining about the pathname. -/
inductive LoadError where
  | fileNotFound (path : String)
  | cannotCreateSpec (path : String)
deriving DecidableEq, Repr

/-- The ambient Python machinery `load` calls into, abstracted: the
directory of the scenarios package (`osp.dirname(__file__)`), the
filesystem predicate `osp.isfile`, spec preparation keyed by the
pathname (the generated unique module name does not influence whether a
spec for an existing file path can be built), and
`module_from_spec` + `loader.exec_module`, producing the module handle
of type `M`. -/
structure LoadEnv (L M : Type) where
  dirname : String
  isfile : String → Bool
  spec_from_file_location : String → Option (ModuleSpec L)
  exec_module : ModuleSpec L → L → M

/-- `load(name)`: join the base directory with `name`; raise
`FileNotFoundError` unless the path is a file; build the module spec
and raise `ImportError` when it (or its loader) is `None`; otherwise
create the module, execute it, and return it. -/
def load {L M : Type} (env : LoadEnv L M) (name : String) : Except LoadError M :=
  let pathname := env.dirname ++ "/" ++ name
  if ¬ env.isfile pathname then
    Except.error (LoadError.fileNotFound pathname)
  else
    match env.spec_from_file_location pathname with
    | none => Except.error (LoadError.cannotCreateSpec pathname)
    | some spec =>
      match spec.loader with
      | none => Except.error (LoadError.cannotCreateSpec pathname)
      | some l => Except.ok (env.exec_module spec l)

end Scenarios

namespace Rendering

/-- A concrete stand-in cosine usable at rotation angle 0 (`rcId 0 = 1`). -/
def rcId : ℚ → ℚ := fun _ => 1

/-- A concrete stand-in sine usable at rotation angle 0 (`rsId 0 = 0`). -/
def rsId : ℚ → ℚ := fun _ => 0

/-- The most recently registered `Color` attribute of an attribute list. -/
def lastColor (attrs : List Attr) : Option Color :=
  attrs.foldl (fun acc a => match a with | Attr.color c => some c | _ => acc) none

/-- The data-model invariant of the spec: the current-color slot equals
the most recently registered `Color` attribute. -/
def colorInv (g : GeomState) : Prop := lastColor g.attrs = some g.color

end Rendering

namespace Rendering

theorem Affine2D.apply_comp (m n : Affine2D) (p : ℚ × ℚ) :
    (m.comp n).apply p = m.apply (n.apply p) := by
  simp only [Affine2D.comp, Affine2D.apply, Prod.mk.injEq]
  constructor <;> ring

theorem Affine2D.apply_id (p : ℚ × ℚ) : Affine2D.id.apply p = p := by
  simp [Affine2D.id, Affine2D.apply]

theorem Affine2D.comp_id (m : Affine2D) : m.comp Affine2D.id = m := by
  simp [Affine2D.comp, Affine2D.id]

theorem Affine2D.id_comp (m : Affine2D) : Affine2D.id.comp m = m := by
  simp [Affine2D.comp, Affine2D.id]

theorem Affine2D.comp_assoc (x y z : Affine2D) :
    (x.comp y).comp z = x.comp (y.comp z) := by
  simp only [Affine2D.comp, Affine2D.mk.injEq]
  refine ⟨?_, ?_, ?_, ?_, ?_, ?_⟩ <;> ring

theorem scaleM_one_apply (p : ℚ × ℚ) : (scaleM 1 1).apply p = p := by
  simp [scaleM, Affine2D.apply]

theorem transM_zero_apply (p : ℚ × ℚ) : (transM 0 0).apply p = p := by
  simp [transM, Affine2D.apply]

theorem rotM_one_zero_apply (p : ℚ × ℚ) : (rotM 1 0).apply p = p := by
  simp [rotM, Affine2D.apply]

/-- Shifting the start value of the `_collect_transform` fold out as a
composition on the right: the fold left-multiplies its accumulator. -/
theorem collect_step_shift (rc rs : ℚ → ℚ) (l : List Attr) (X : Affine2D) :
    l.foldl (fun affine attr =>
      match attr with
      | Attr.transform t => mplAdd affine (t.as_affine rc rs)
      | _ => affine) X
    = (l.foldl (fun affine attr =>
      match attr with
      | Attr.transform t => mplAdd affine (t.as_affine rc rs)
      | _ => affine) Affine2D.id).comp X := by
  induction l generalizing X with
  | nil => simp [Affine2D.id_comp]
  | cons a rest ih =>
    cases a with
    | transform t =>
      simp only [List.foldl_cons]
      rw [ih (mplAdd X (t.as_affine rc rs)), ih (mplAdd Affine2D.id (t.as_affine rc rs))]
      simp [mplAdd, Affine2D.comp_id, Affine2D.comp_assoc]
    | color c => simp only [List.foldl_cons]; exact ih X
    | linewidth w => simp only [List.foldl_cons]; exact ih X

/-- Attaching one more `Transform` composes its affine map on the right:
the last-attached transform is applied first to local points. -/
theorem collect_transform_add (rc rs : ℚ → ℚ) (g : GeomState) (t : Transform) :
    collect_transform rc rs (g.add_attr (Attr.transform t))
      = (collect_transform rc rs g).comp (t.as_affine rc rs) := by
  have h : (g.attrs ++ [Attr.transform t]).reverse = Attr.transform t :: g.attrs.reverse := by
    simp
  simp only [collect_transform, GeomState.add_attr, h, List.foldl_cons]
  rw [collect_step_shift]
  simp [mplAdd, Affine2D.comp_id]

theorem drawList_append (rc rs : ℚ → ℚ) (xs ys : List Geom) :
    Geom.drawList rc rs (xs ++ ys) = Geom.drawList rc rs xs ++ Geom.drawList rc rs ys := by
  induction xs with
  | nil => simp [Geom.drawList]
  | cons g rest ih => simp [Geom.drawList, ih]

theorem lastColor_append_color (xs : List Attr) (c : Color) :
    lastColor (xs ++ [Attr.color c]) = some c := by
  simp [lastColor, List.foldl_append]

theorem lastColor_append_nonColor (xs : List Attr) (a : Attr) (h : a.isColor = false) :
    lastColor (xs ++ [a]) = lastColor xs := by
  cases a <;> simp_all [lastColor, List.foldl_append, Attr.isColor]

end Rendering

open Rendering Scenarios

/-- Claim C1. The claim asserts the effective transform composes in
reverse attachment order, `resolve(T3) ∘ resolve(T2) ∘ resolve(T1)`, and
that attaching `Transform(scale=(2,2))` then `Transform(translation=(5,0))`
maps the local origin to `(5, 0)`. The code does the opposite:
`_collect_transform` composes in attachment order — the general conjunct
shows the last-attached transform is applied first (innermost), and on the
claim's example the origin is mapped to `(10, 0)` (translated first, then
scaled), not `(5, 0)`; this contradicts the comment in
`_collect_transform` that it emulates the original GL reversed-order
semantics. -/
theorem C1_collect_transform_attachment_order (rc rs : ℚ → ℚ) :
    (∀ (g : GeomState) (t : Transform),
      collect_transform rc rs (g.add_attr (Attr.transform t))
        = (collect_transform rc rs g).comp (t.as_affine rc rs))
    ∧ (collect_transform rc rs
        ((GeomState.init.add_attr (Attr.transform ⟨(0, 0), 0, (2, 2)⟩)).add_attr
          (Attr.transform ⟨(5, 0), 0, (1, 1)⟩))).apply (0, 0) = (10, 0)
    ∧ ((10 : ℚ), (0 : ℚ)) ≠ ((5 : ℚ), (0 : ℚ)) := by
  refine ⟨collect_transform_add rc rs, ?_, by norm_num⟩
  simp [collect_transform, GeomState.init, GeomState.add_attr, Transform.as_affine,
        mplAdd, Affine2D.comp, Affine2D.id, Affine2D.apply, scaleM, transM, Color.ofRGBA]
  norm_num

/-- Claim C2. The claim asserts the returned pixel buffer has channel
order R,G,B. The code calls `tostring_argb` and slices `[:, :, :3]`,
keeping alpha, red, green and dropping blue: a 1×1 canvas whose pixel
has ARGB bytes `(7, 10, 20, 30)` yields the pixel `[7, 10, 20]`
(alpha, red, green), not the RGB triple `[10, 20, 30]`. The shape
`(height, width, 3)` and the `None` return without pixel extraction do
hold. -/
theorem C2_render_argb_channels :
    ((Viewer.init 1 1 100).render rcId rsId (fun _ _ _ => (7, 10, 20, 30)) true).1
        = some [[[7, 10, 20]]]
    ∧ ((Viewer.init 1 1 100).render rcId rsId (fun _ _ _ => (7, 10, 20, 30)) false).1 = none
    ∧ ([[[7, 10, 20]]] : List (List (List ℕ))) ≠ [[[10, 20, 30]]] := by
  refine ⟨?_, rfl, by decide⟩
  simp [Viewer.render, Viewer.init, Viewer.prepare_frame, Geom.drawList,
        extract_pixels, tostring_argb, List.range_succ]

/-- Claim C3. After any render call (with or without pixel extraction),
the onetime list is empty and the persistent list is unchanged; a geom
registered with `add_onetime` is among the geoms drawn by the next
render, the frame's artists are exactly those of the drawn geoms in
order, and, provided the geom is not also persistent, it is not among
the geoms drawn after that render. -/
theorem C3_onetime_cleared_after_render (rc rs : ℚ → ℚ)
    (rasterize : Frame → ℕ → ℕ → ℕ × ℕ × ℕ × ℕ) (v : Viewer) (g : Geom) (flag : Bool) :
    ((v.add_onetime g).render rc rs rasterize flag).2.onetime_geoms = []
    ∧ ((v.add_onetime g).render rc rs rasterize flag).2.geoms = (v.add_onetime g).geoms
    ∧ g ∈ (v.add_onetime g).drawnGeoms
    ∧ ((v.add_onetime g).prepare_frame rc rs).artists
        = Geom.drawList rc rs (v.add_onetime g).drawnGeoms
    ∧ (g ∉ v.geoms → g ∉ ((v.add_onetime g).render rc rs rasterize flag).2.drawnGeoms) := by
  cases flag <;>
    simp [Viewer.render, Viewer.add_onetime, Viewer.drawnGeoms, Viewer.prepare_frame,
          drawList_append]

/-- Witness for C3 at a concrete viewer: a circle registered as onetime
is no longer among the drawn geoms after one render. -/
theorem C3_onetime_cleared_after_render_witness :
    make_circle 1 30 true ∉
      (((Viewer.init 2 2 100).add_onetime (make_circle 1 30 true)).render rcId rsId
        (fun _ _ _ => (0, 0, 0, 0)) true).2.drawnGeoms :=
  (C3_onetime_cleared_after_render rcId rsId (fun _ _ _ => (0, 0, 0, 0))
    (Viewer.init 2 2 100) (make_circle 1 30 true) true).2.2.2.2
    (by simp [Viewer.init])

/-- Claim C4. `set_bounds(left, right, bottom, top)` fails (assertion)
iff `right ≤ left ∨ top ≤ bottom`; on failure no state is produced (the
assert precedes the assignment, so the caller's viewer is untouched); on
success only the bounds change and the next frame's axis limits are the
new bounds. -/
theorem C4_set_bounds_validation (v : Viewer) (l r b t : ℚ) :
    (v.set_bounds l r b t = none ↔ (r ≤ l ∨ t ≤ b))
    ∧ (∀ v2, v.set_bounds l r b t = some v2 →
        v2.bounds = (l, r, b, t) ∧ v2.geoms = v.geoms
        ∧ v2.onetime_geoms = v.onetime_geoms
        ∧ v2.width = v.width ∧ v2.height = v.height ∧ v2.dpi = v.dpi
        ∧ ∀ rc rs, ((v2.prepare_frame rc rs).xlim = (l, r)
            ∧ (v2.prepare_frame rc rs).ylim = (b, t))) := by
  by_cases h : r > l ∧ t > b
  · constructor
    · simp only [Viewer.set_bounds, if_pos h]
      constructor
      · intro hc; exact absurd hc (Option.some_ne_none _)
      · intro hc
        rcases hc with hc | hc
        · exact absurd h.1 (not_lt.mpr hc)
        · exact absurd h.2 (not_lt.mpr hc)
    · intro v2 hv2
      simp only [Viewer.set_bounds, if_pos h, Option.some.injEq] at hv2
      subst hv2
      refine ⟨rfl, rfl, rfl, rfl, rfl, rfl, ?_⟩
      intro rc rs
      exact ⟨rfl, rfl⟩
  · constructor
    · simp only [Viewer.set_bounds, if_neg h]
      constructor
      · intro _
        rcases not_and_or.mp h with hh | hh
        · exact Or.inl (not_lt.mp hh)
        · exact Or.inr (not_lt.mp hh)
      · intro _; trivial
    · intro v2 hv2
      simp only [Viewer.set_bounds, if_neg h] at hv2
      exact absurd hv2 (by simp)

/-- Witness for C4: `set_bounds(-1, 1, -1, 1)` succeeds and stores
exactly those bounds. -/
theorem C4_set_bounds_validation_witness :
    ((Viewer.init 2 3 100).set_bounds (-1) 1 (-1) 1 = none
      ↔ ((1 : ℚ) ≤ -1 ∨ (1 : ℚ) ≤ -1))
    ∧ (Viewer.mk 2 3 100 [] [] (-1, 1, -1, 1)).bounds = (-1, 1, -1, 1) :=
  have h := C4_set_bounds_validation (Viewer.init 2 3 100) (-1) 1 (-1) 1
  ⟨h.1, (h.2 (Viewer.mk 2 3 100 [] [] (-1, 1, -1, 1))
    (by norm_num [Viewer.set_bounds, Viewer.init])).1⟩

/-- Claim C5. For any cosine/sine functions agreeing with
`cos 0 = 1, sin 0 = 0`, a single `Transform`'s resolved affine map
applies scale first, then rotation, then translation — equal as a
function on points to `translate ∘ rotate ∘ scale` — so the identity
components skipped by the guards in `as_affine` are mathematically
inert. -/
theorem C5_as_affine_scale_rotate_translate (rc rs : ℚ → ℚ)
    (hc : rc 0 = 1) (hs : rs 0 = 0) (T : Transform) (p : ℚ × ℚ) :
    (T.as_affine rc rs).apply p =
      (transM T.translation.1 T.translation.2).apply
        ((rotM (rc T.rotation) (rs T.rotation)).apply
          ((scaleM T.scale.1 T.scale.2).apply p)) := by
  simp only [Transform.as_affine]
  split_ifs with h1 h2 h3 <;>
    simp only [Affine2D.apply_comp, Affine2D.apply_id] <;>
    push_neg at * <;>
    first
      | rfl
      | ((try obtain ⟨hx1, hx2⟩ := h1);
         (try obtain ⟨hy1, hy2⟩ := h3);
         simp_all [scaleM_one_apply, transM_zero_apply, rotM_one_zero_apply])

/-- Witness for C5 at `translation (3, 4)`, `rotation 0`,
`scale (2, 5)`, point `(1, 2)`. -/
theorem C5_as_affine_scale_rotate_translate_witness :
    ((Transform.mk (3, 4) 0 (2, 5)).as_affine rcId rsId).apply (1, 2) =
      (transM 3 4).apply ((rotM (rcId 0) (rsId 0)).apply ((scaleM 2 5).apply (1, 2))) :=
  C5_as_affine_scale_rotate_translate rcId rsId rfl rfl ⟨(3, 4), 0, (2, 5)⟩ (1, 2)

/-- Counterexample to claim C6 as stated: `add_attr` is an operation on a
Geom, and attaching a `Color` attribute through it leaves the
current-color slot (still black) different from the most recently
registered `Color` attribute (red), so the invariant is not preserved by
every operation. -/
theorem C6_color_invariant_cex :
    ¬ colorInv (GeomState.init.add_attr (Attr.color (Color.ofRGBA 1 0 0 1))) := by
  unfold colorInv
  decide

/-- Claim C6, amended: the invariant holds at construction and is
preserved by `set_color`, `set_linewidth`, and `add_attr` with non-Color
attributes (but not by `add_attr` with a `Color`); `set_color` removes
any prior Color attribute and appends the new one at the end, leaving
exactly one Color attribute, which is the most recently registered
one. -/
theorem C6_color_invariant_amended :
    colorInv GeomState.init
    ∧ (∀ g r gr b a, colorInv (GeomState.set_color g r gr b a)
        ∧ ((GeomState.set_color g r gr b a).attrs.filter (fun x => x.isColor)).length = 1
        ∧ lastColor (GeomState.set_color g r gr b a).attrs = some (Color.ofRGBA r gr b a))
    ∧ (∀ g x, colorInv g → colorInv (g.set_linewidth x))
    ∧ (∀ g a, a.isColor = false → colorInv g → colorInv (g.add_attr a)) := by
  refine ⟨by unfold colorInv; decide, ?_, ?_, ?_⟩
  · intro g r gr b a
    refine ⟨?_, ?_, ?_⟩
    · simp [colorInv, GeomState.set_color, lastColor_append_color]
    · simp [GeomState.set_color, List.filter_append, List.filter_filter, Attr.isColor]
    · simp [GeomState.set_color, lastColor_append_color]
  · intro g x h
    simpa [colorInv, GeomState.set_linewidth] using h
  · intro g a ha h
    simp only [colorInv, GeomState.add_attr] at *
    rw [lastColor_append_nonColor _ _ ha]
    exact h

/-- Witness for C6 (amended): the invariant survives `set_linewidth`
from the freshly constructed state. -/
theorem C6_color_invariant_amended_witness :
    colorInv (GeomState.init.set_linewidth 2) :=
  C6_color_invariant_amended.2.2.1 GeomState.init 2 (by unfold colorInv; decide)

/-- Counterexample to claim C7 as stated: a non-identity `Transform`
(translation `(1, 0)`) attached to a Compound itself does NOT contribute
to the drawing — `Compound.draw` ignores the compound's own attributes
entirely, so the drawn artists are identical with and without it, and
the child circle's world center stays `(0, 0)`, not `(1, 0)`. -/
theorem C7_compound_transform_ignored_cex :
    Geom.draw rcId rsId
        (Geom.compound (GeomState.init.add_attr (Attr.transform ⟨(1, 0), 0, (1, 1)⟩))
          [make_circle 1 30 true])
      = Geom.draw rcId rsId (Geom.compound GeomState.init [make_circle 1 30 true])
    ∧ (Geom.draw rcId rsId
        (Geom.compound (GeomState.init.add_attr (Attr.transform ⟨(1, 0), 0, (1, 1)⟩))
          [make_circle 1 30 true])).filterMap Artist.circleWorldCenter = [((0 : ℚ), (0 : ℚ))]
    ∧ ((0 : ℚ), (0 : ℚ)) ≠ ((1 : ℚ), (0 : ℚ)) := by
  refine ⟨by simp [Geom.draw], ?_, by decide⟩
  simp [Geom.draw, Geom.drawList, make_circle, GeomState.init, GeomState.get_colors,
        collect_transform, Color.ofRGBA, clamp01, Artist.circleWorldCenter,
        Affine2D.apply, Affine2D.id]

/-- Claim C7, amended: `Compound.draw` draws each child in order and
uses none of the Compound's own attributes — including transforms
attached to the Compound itself, which are ignored rather than applied;
consequently the two caps of `make_capsule(length, width)` render with
world centroids `(0, 0)` and `(length, 0)` — offset exactly
`(length, 0)` — for every transform attached to the whole compound. -/
theorem C7_compound_draw_amended (rc rs : ℚ → ℚ) :
    (∀ st gs, Geom.draw rc rs (Geom.compound st gs) = Geom.drawList rc rs gs)
    ∧ (∀ len wid tr,
        (Geom.draw rc rs ((make_capsule len wid).add_attr (Attr.transform tr))).filterMap
            Artist.circleWorldCenter = [((0 : ℚ), (0 : ℚ)), (len, 0)]) := by
  constructor
  · intro st gs; simp [Geom.draw]
  · intro len wid tr
    by_cases hL : len = 0 <;>
      simp [make_capsule, make_polygon, make_circle, Geom.add_attr, Geom.draw, Geom.drawList,
            GeomState.init, GeomState.add_attr, collect_transform, Transform.as_affine,
            mplAdd, Affine2D.comp, Affine2D.id, Affine2D.apply, transM,
            Artist.circleWorldCenter, hL]

/-- Claim C8. Drawing a closed PolyLine with `n ≥ 1` vertices rasterizes
`n` segments — the rasterized point run is the stored list plus a copy
of the first vertex, built only for rasterization (the geom value, its
vertex list included, is a pure input of `draw`) — while an open
PolyLine with the same vertices rasterizes `n - 1` segments. -/
theorem C8_polyline_segments (rc rs : ℚ → ℚ) (st : GeomState)
    (v : List (ℚ × ℚ)) (h : v ≠ []) :
    ((Geom.draw rc rs (Geom.polyLine st v true)).map Artist.nsegments = [v.length])
    ∧ ((Geom.draw rc rs (Geom.polyLine st v false)).map Artist.nsegments = [v.length - 1])
    ∧ ((Geom.draw rc rs (Geom.polyLine st v true)).map Artist.linePoints
        = [(v ++ [v.head h]).map (collect_transform rc rs st).apply]) := by
  obtain ⟨x, xs, rfl⟩ := List.exists_cons_of_ne_nil h
  refine ⟨?_, ?_, ?_⟩ <;>
    simp [Geom.draw, Artist.nsegments, Artist.linePoints]

/-- Witness for C8 at the spec's example `[(0,0), (1,0), (1,1)]`:
3 segments closed, 2 open. -/
theorem C8_polyline_segments_witness :
    ((Geom.draw rcId rsId
        (Geom.polyLine GeomState.init [(0, 0), (1, 0), (1, 1)] true)).map Artist.nsegments
      = [3])
    ∧ ((Geom.draw rcId rsId
        (Geom.polyLine GeomState.init [(0, 0), (1, 0), (1, 1)] false)).map Artist.nsegments
      = [2]) :=
  have h := C8_polyline_segments rcId rsId GeomState.init
    [(0, 0), (1, 0), (1, 1)] (by decide)
  ⟨h.1, h.2.1⟩

/-- Claim C9. `load(name)` returns the not-found error exactly when the
joined path is not a file; it returns the load error exactly when the
path is a file but the module spec (or its loader) cannot be prepared;
otherwise it executes the module and returns the handle. -/
theorem C9_load_error_handling {L M : Type} (env : LoadEnv L M) (name : String) :
    (load env name = Except.error (LoadError.fileNotFound (env.dirname ++ "/" ++ name))
        ↔ env.isfile (env.dirname ++ "/" ++ name) = false)
    ∧ (load env name = Except.error (LoadError.cannotCreateSpec (env.dirname ++ "/" ++ name))
        ↔ (env.isfile (env.dirname ++ "/" ++ name) = true
            ∧ (env.spec_from_file_location (env.dirname ++ "/" ++ name) = none
              ∨ ∃ s, env.spec_from_file_location (env.dirname ++ "/" ++ name) = some s
                  ∧ s.loader = none)))
    ∧ (∀ s l, env.isfile (env.dirname ++ "/" ++ name) = true
        → env.spec_from_file_location (env.dirname ++ "/" ++ name) = some s
        → s.loader = some l
        → load env name = Except.ok (env.exec_module s l)) := by
  by_cases hf : env.isfile (env.dirname ++ "/" ++ name)
  · cases hspec : env.spec_from_file_location (env.dirname ++ "/" ++ name) with
    | none => simp [load, hf, hspec]
    | some s =>
      cases hl : s.loader with
      | none =>
        refine ⟨by simp [load, hf, hspec, hl], by simp [load, hf, hspec, hl], ?_⟩
        intro s1 l _ hss hl1
        obtain rfl : s = s1 := Option.some.inj hss
        rw [hl] at hl1
        exact absurd hl1 (by simp)
      | some l =>
        refine ⟨by simp [load, hf, hspec, hl], by simp [load, hf, hspec, hl], ?_⟩
        intro s2 l2 _ hs2 hl2
        obtain rfl : s = s2 := Option.some.inj hs2
        rw [hl] at hl2
        obtain rfl : l = l2 := Option.some.inj hl2
        simp [load, hf, hspec, hl]
  · simp [load, hf]

/-- Witness for C9 at a concrete environment where the file exists and
the spec has a loader: `load` returns the executed module. -/
theorem C9_load_error_handling_witness :
    load (LoadEnv.mk "base" (fun _ => true) (fun _ => some ⟨some 1⟩)
      (fun _ _ => (42 : ℕ)) : LoadEnv ℕ ℕ) "simple.py" = Except.ok 42 :=
  (C9_load_error_handling (LoadEnv.mk "base" (fun _ => true)
    (fun _ => some ⟨some 1⟩) (fun _ _ => (42 : ℕ))) "simple.py").2.2
    ⟨some 1⟩ 1 rfl rfl rfl

/-- Claim C10. `make_circle` ignores `res` and `filled` — every argument
combination yields the same Circle geom — and drawing it produces a
filled-disc patch whose face color is the opaque default fill (so
`filled=False`, and hence `draw_circle(filled=False)`, still gives a
filled circle, never a stroke-only outline). -/
theorem C10_make_circle_ignores_args (radius : ℚ) (res res2 : ℕ)
    (filled filled2 : Bool) (rc rs : ℚ → ℚ) (v : Viewer) (m : AttrMap) :
    make_circle radius res filled = make_circle radius res2 filled2
    ∧ Geom.draw rc rs (make_circle radius res filled)
        = [Artist.circle (0, 0) radius (0, 0, 0, 1) (0, 0, 0, 1/2) 1 Affine2D.id]
    ∧ ((v.draw_circle radius res false m).1 = (v.draw_circle radius res2 true m).1) := by
  refine ⟨rfl, ?_, rfl⟩
  simp [Geom.draw, make_circle, GeomState.init, GeomState.get_colors, collect_transform,
        Color.ofRGBA, clamp01, Affine2D.id]
